import Mathlib

/-!
Verification of the release-metadata core of `XC_VM_API`
(`helpers/git_releases.py`, class `GitHubReleases`).

The stateful Python methods are embedded as pure Lean functions over an
explicit cache state.  Network effects (`requests.get`) are passed in as
explicit arguments: a successful request with a parsed body is `.ok body`,
a raised `requests.exceptions.RequestException` is `.error e`.  Wall-clock
time is an explicit `now : Int` argument.  Each function additionally
returns the number of upstream release-list HTTP requests it issued, so
that caching claims can be stated.
-/

deriving instance DecidableEq for Except

namespace GitHubReleases

/-- A release asset record as returned by the GitHub API.  Both fields are
read with `dict.get`, so each may be absent. -/
structure Asset where
  name : Option String
  browser_download_url : Option String
deriving DecidableEq, Repr

/-- A release record: the `tag_name` field (possibly absent) and the list of
assets (`release.get("assets", [])`). -/
structure Release where
  tag_name : Option String
  assets : List Asset
deriving DecidableEq, Repr

/-- A raised `requests.exceptions.RequestException` (network error,
non-success status via `raise_for_status`, malformed body). -/
inductive FetchError
  | requestException
deriving DecidableEq, Repr

/-- The mutable cache of a `GitHubReleases` instance: `_cache` and
`_cache_timestamp`. -/
structure CacheState where
  cache : Option (List Release)
  cache_timestamp : Option Int
deriving DecidableEq, Repr

/-- `_cache_ttl`: 1800 seconds (30 minutes). -/
def cache_ttl : Int := 1800

/-- `_is_cache_valid`: false when `_cache` or `_cache_timestamp` is `None`,
otherwise `time.time() - self._cache_timestamp < self._cache_ttl`. -/
def is_cache_valid (s : CacheState) (now : Int) : Bool :=
  match s.cache, s.cache_timestamp with
  | some _, some t => decide (now - t < cache_ttl)
  | _, _ => false

/-- `clear_cache`: sets `_cache` and `_cache_timestamp` to `None`. -/
def clear_cache (_s : CacheState) : CacheState :=
  { cache := none, cache_timestamp := none }

/-- Python truthiness of `release.get("tag_name")`: `None` and the empty
string are falsy, every other string is truthy. -/
def truthyTag : Option String → Bool
  | none => false
  | some t => t != ""

/-- The list comprehension in `get_releases`:
`[release.get("tag_name", "") for release in cache if release.get("tag_name")]`. -/
def extract_tags (rels : List Release) : List String :=
  (rels.filter (fun r => truthyTag r.tag_name)).map (fun r => r.tag_name.getD "")

/-- The cache-refresh block shared verbatim by `get_releases` (lines 72-87),
`get_asset_hash` (lines 167-175) and `get_changelog` (lines 242-250): if the
cache is valid it is kept, otherwise `requests.get` is issued and the parsed
body stored in `_cache` with a fresh `_cache_timestamp`.  Returns the
resulting state (or the raised error, in which case the assignments to
`_cache` were never reached and the state is unchanged) together with the
number of upstream release-list requests issued (0 or 1). -/
def refreshCache (s : CacheState) (now : Int)
    (listFetch : Except FetchError (List Release)) :
    Except FetchError CacheState × Nat :=
  if is_cache_valid s now then (.ok s, 0)
  else
    match listFetch with
    | .ok body => (.ok { cache := some body, cache_timestamp := some now }, 1)
    | .error e => (.error e, 1)

/-- `get_releases`: refresh the cache if stale, then extract the non-empty
tag names; a raised `RequestException` is logged and re-raised.  Returns the
result (or raised error), the post-state, and the number of upstream
release-list requests issued. -/
def get_releases (s : CacheState) (now : Int)
    (listFetch : Except FetchError (List Release)) :
    Except FetchError (List String) × CacheState × Nat :=
  match refreshCache s now listFetch with
  | (.ok s', n) => (.ok (extract_tags (s'.cache.getD [])), s', n)
  | (.error e, n) => (.error e, s, n)

/-- The list logic of `get_next_version` applied to the `releases` list
returned by `get_releases`: `None` when `current_version not in releases`,
otherwise `releases[index - 1]` for the first occurrence index when it is
positive, and `None` when the first occurrence is at index 0.  The Python
indexing `releases[index - 1]` is in range whenever taken, so the
`getElem?` here is `some` on that path. -/
def next_version (releases : List String) (current_version : String) : Option String :=
  if current_version ∈ releases then
    let index := releases.indexOf current_version
    if index > 0 then releases[index - 1]? else none
  else none

/-- `get_next_version`: calls `get_releases` (so a raised fetch error
propagates), then resolves the successor in the returned list. -/
def get_next_version (s : CacheState) (now : Int)
    (listFetch : Except FetchError (List Release)) (current_version : String) :
    Except FetchError (Option String) × CacheState × Nat :=
  match get_releases s now listFetch with
  | (.ok rels, s', n) => (.ok (next_version rels current_version), s', n)
  | (.error e, s', n) => (.error e, s', n)

/-- C1: `next_version` returns `none` when the current version does not
occur in the release list, `none` when its first occurrence is at position 0
(the newest entry), and the entry at position `i - 1` (which exists) when
its first occurrence is at position `i > 0`; on the list
`["v1.0.2", "v1.0.1", "v1.0.0"]`, `"v1.0.0"` resolves to `"v1.0.1"` while
`"v1.0.2"` and `"v9.9.9"` resolve to `none`. -/
theorem next_version_spec (releases : List String) (current : String) :
    (current ∉ releases → next_version releases current = none) ∧
    (releases.indexOf current = 0 → next_version releases current = none) ∧
    (current ∈ releases → 0 < releases.indexOf current →
      next_version releases current = releases[releases.indexOf current - 1]? ∧
      (releases[releases.indexOf current - 1]?).isSome = true) ∧
    next_version ["v1.0.2", "v1.0.1", "v1.0.0"] "v1.0.0" = some "v1.0.1" ∧
    next_version ["v1.0.2", "v1.0.1", "v1.0.0"] "v1.0.2" = none ∧
    next_version ["v1.0.2", "v1.0.1", "v1.0.0"] "v9.9.9" = none := by
  refine ⟨?_, ?_, ?_, by decide, by decide, by decide⟩
  · intro h
    simp [next_version, h]
  · intro h
    simp [next_version, h]
  · intro hm hi
    refine ⟨by simp [next_version, hm, hi], ?_⟩
    have hlt : releases.indexOf current < releases.length :=
      List.indexOf_lt_length.mpr hm
    have : releases.indexOf current - 1 < releases.length := by omega
    rw [List.getElem?_eq_getElem this]
    rfl

/-- Witness for C1 at a concrete input: resolving `"v1.0.1"` in the example
list yields the entry just before it, `"v1.0.2"`. -/
theorem next_version_spec_witness :
    next_version ["v1.0.2", "v1.0.1", "v1.0.0"] "v1.0.1" = some "v1.0.2" := by
  obtain ⟨-, -, h3, -, -, -⟩ :=
    next_version_spec ["v1.0.2", "v1.0.1", "v1.0.0"] "v1.0.1"
  obtain ⟨he, -⟩ := h3 (by decide) (by decide)
  rw [he]
  decide

/-- C2 counterexample: with a stale-but-present snapshot (fetched at time 0,
read at time 5000, TTL 1800) a failed fetch makes `get_releases` raise the
fetch error; the read is NOT served from the stale snapshot even though the
snapshot is still present. -/
theorem get_releases_stale_failure_counterexample :
    is_cache_valid ⟨some [⟨some "v1.0.0", []⟩], some 0⟩ 5000 = false ∧
    (⟨some [⟨some "v1.0.0", []⟩], some 0⟩ : CacheState).cache ≠ none ∧
    (get_releases ⟨some [⟨some "v1.0.0", []⟩], some 0⟩ 5000
        (.error .requestException)).1 = .error .requestException ∧
    (get_releases ⟨some [⟨some "v1.0.0", []⟩], some 0⟩ 5000
        (.error .requestException)).1 ≠ .ok ["v1.0.0"] := by
  decide

/-- C2 (amended): whenever a read finds the cache invalid (cold OR merely
stale) and the upstream fetch fails, `get_releases` propagates the error to
the caller — it does not fall back to stale data — but the previous snapshot
is not discarded: the state is unchanged. -/
theorem get_releases_fetch_failure_propagates (s : CacheState) (now : Int)
    (e : FetchError) (h : is_cache_valid s now = false) :
    (get_releases s now (.error e)).1 = .error e ∧
    (get_releases s now (.error e)).2.1 = s := by
  simp [get_releases, refreshCache, h]

/-- Witness for C2 (amended) at a concrete stale state. -/
theorem get_releases_fetch_failure_propagates_witness :
    (get_releases ⟨some [⟨some "v1.0.0", []⟩], some 0⟩ 5000
        (.error .requestException)).1 = .error .requestException ∧
    (get_releases ⟨some [⟨some "v1.0.0", []⟩], some 0⟩ 5000
        (.error .requestException)).2.1 = ⟨some [⟨some "v1.0.0", []⟩], some 0⟩ :=
  get_releases_fetch_failure_propagates ⟨some [⟨some "v1.0.0", []⟩], some 0⟩ 5000
    .requestException (by decide)

/-- C8: `clear_cache` clears both the snapshot and its timestamp, so the
cache is invalid at every later time and the next read issues an upstream
fetch regardless of remaining TTL; `clear_cache` followed by a failed fetch
leaves the cache empty, and `get_next_version` then raises the fetch error
rather than returning any previously cached data. -/
theorem clear_cache_then_failed_fetch (s : CacheState) (now : Int)
    (e : FetchError) (current : String) :
    (clear_cache s).cache = none ∧
    (clear_cache s).cache_timestamp = none ∧
    is_cache_valid (clear_cache s) now = false ∧
    (get_releases (clear_cache s) now (.error e)).2.2 = 1 ∧
    (get_next_version (clear_cache s) now (.error e) current).1 = .error e ∧
    (get_next_version (clear_cache s) now (.error e) current).2.1.cache = none := by
  simp [clear_cache, is_cache_valid, get_next_version, get_releases, refreshCache]

/-- The comprehension in `get_releases` keeps exactly the present, non-empty
tags, in order: it equals a `filterMap`. -/
theorem extract_tags_eq_filterMap (rels : List Release) :
    extract_tags rels = rels.filterMap (fun r =>
      match r.tag_name with
      | some t => if t = "" then none else some t
      | none => none) := by
  induction rels with
  | nil => rfl
  | cons r rs ih =>
    simp only [extract_tags, List.filter_cons, List.filterMap_cons] at ih ⊢
    cases hr : r.tag_name with
    | none => simpa [truthyTag, hr] using ih
    | some t =>
      by_cases ht : t = ""
      · simpa [truthyTag, hr, ht] using ih
      · simpa [truthyTag, hr, ht] using ih

/-- C10: whenever `get_releases` returns a list (via the cached path or the
fresh-fetch path), that list consists of exactly the `tag_name` values of
the post-state snapshot entries that have a present, non-empty `tag_name`,
in snapshot order; entries with a missing or empty `tag_name` are omitted
without an error or an empty-string placeholder. -/
theorem get_releases_tag_extraction (s : CacheState) (now : Int)
    (listFetch : Except FetchError (List Release)) (l : List String)
    (h : (get_releases s now listFetch).1 = .ok l) :
    ∃ rels, (get_releases s now listFetch).2.1.cache = some rels ∧
      l = rels.filterMap (fun r =>
        match r.tag_name with
        | some t => if t = "" then none else some t
        | none => none) := by
  by_cases hv : is_cache_valid s now = true
  · cases hc : s.cache with
    | none => simp [is_cache_valid, hc] at hv
    | some rels =>
      have hres : (get_releases s now listFetch).1 = .ok (extract_tags rels) := by
        simp [get_releases, refreshCache, hv, hc]
      rw [hres] at h
      simp only [Except.ok.injEq] at h
      refine ⟨rels, ?_, ?_⟩
      · simp [get_releases, refreshCache, hv, hc]
      · rw [← h]
        exact extract_tags_eq_filterMap rels
  · rw [Bool.not_eq_true] at hv
    cases listFetch with
    | error e => simp [get_releases, refreshCache, hv] at h
    | ok body =>
      have hres : (get_releases s now (.ok body)).1 = .ok (extract_tags body) := by
        simp [get_releases, refreshCache, hv]
      rw [hres] at h
      simp only [Except.ok.injEq] at h
      refine ⟨body, ?_, ?_⟩
      · simp [get_releases, refreshCache, hv]
      · rw [← h]
        exact extract_tags_eq_filterMap body

/-- Witness for C10: a snapshot with one proper tag, one missing tag and one
empty tag yields just the proper tag. -/
theorem get_releases_tag_extraction_witness :
    ∃ rels,
      (get_releases ⟨some [⟨some "v1.0.1", []⟩, ⟨none, []⟩, ⟨some "", []⟩], some 0⟩ 10
          (.ok [])).2.1.cache = some rels ∧
      ["v1.0.1"] = rels.filterMap (fun r =>
        match r.tag_name with
        | some t => if t = "" then none else some t
        | none => none) :=
  get_releases_tag_extraction ⟨some [⟨some "v1.0.1", []⟩, ⟨none, []⟩, ⟨some "", []⟩], some 0⟩
    10 (.ok []) ["v1.0.1"] rfl

/-- The ASCII whitespace stripped by Python `str.strip()` (the additional
Unicode space characters Python strips never occur in the inputs considered
here). -/
def pyIsSpace (c : Char) : Bool :=
  c == ' ' || c == '\t' || c == '\n' || c == '\r' || c == '\x0b' || c == '\x0c'

/-- Python `str.strip()`: remove leading and trailing whitespace. -/
def pyStrip (s : String) : String :=
  ⟨((s.data.dropWhile pyIsSpace).reverse.dropWhile pyIsSpace).reverse⟩

/-- Consume `[0-9]+` greedily: one or more ASCII digits, returning the rest
of the characters. -/
def chompDigits : List Char → Option (List Char)
  | c :: rest => if c.isDigit then some (rest.dropWhile Char.isDigit) else none
  | [] => none

/-- Full match of the regex body `v[0-9]+\.[0-9]+\.[0-9]+` against a whole
character list. -/
def versionPatternCore (s : List Char) : Bool :=
  match s with
  | 'v' :: r1 =>
    match chompDigits r1 with
    | some ('.' :: r2) =>
      match chompDigits r2 with
      | some ('.' :: r3) =>
        match chompDigits r3 with
        | some [] => true
        | _ => false
      | _ => false
    | _ => false
  | _ => false

/-- Python `re.match(r"^v[0-9]+\.[0-9]+\.[0-9]+$", s)` as a Boolean.
Without `re.MULTILINE`, `$` matches at the end of the string or just before
a newline that ends the string, so the pattern also accepts a full match
followed by one final `'\n'`. -/
def pyMatchVersionPattern (s : String) : Bool :=
  versionPatternCore s.data ||
    (s.data.getLast? == some '\n' && versionPatternCore s.data.dropLast)

/-- The natural number denoted by a list of decimal digit characters. -/
def digitsToNat (ds : List Char) : Nat :=
  ds.foldl (fun n c => 10 * n + (c.toNat - '0'.toNat)) 0

/-- Python `int(str)` restricted to the shapes reachable in
`is_valid_version`: surrounding whitespace, an optional sign, then one or
more ASCII digits.  (`int`'s underscore separators and Unicode digits cannot
occur in a part of a string that already matched the version regex.)
`none` models a raised `ValueError`. -/
def pyInt (p : String) : Option Int :=
  match (pyStrip p).data with
  | [] => none
  | '+' :: ds =>
    if !ds.isEmpty && ds.all Char.isDigit then some (digitsToNat ds) else none
  | '-' :: ds =>
    if !ds.isEmpty && ds.all Char.isDigit then some (-(digitsToNat ds : Int)) else none
  | ds =>
    if ds.all Char.isDigit then some (digitsToNat ds) else none

/-- Python `str.split(".")` on a list of characters: split at every `'.'`.
The result is never empty. -/
def splitDots : List Char → List (List Char)
  | [] => [[]]
  | c :: rest =>
    if c = '.' then [] :: splitDots rest
    else
      match splitDots rest with
      | part :: parts => (c :: part) :: parts
      | [] => [[c]]

/-- Python `version[1:].split(".")`. -/
def versionParts (version : String) : List String :=
  (splitDots (version.data.drop 1)).map (fun cs => ⟨cs⟩)

/-- The body of the per-part loop in `is_valid_version`: `int(part)` (a
raised `ValueError` is caught by the surrounding `try` and yields `False`),
the `num < 0` guard, and the leading-zero guard (`part.startswith("0")` is
"the first character is `'0'`").  `false` covers all three `return False`
paths. -/
def versionPartOk (part : String) : Bool :=
  match pyInt part with
  | none => false
  | some num =>
    if num < 0 then false
    else if part.data.head? == some '0' && decide (1 < part.length) then false
    else true

/-- The `ValueError("Version string is too long")` raised by
`is_valid_version` on oversized input. -/
inductive LengthError
  | tooLong
deriving DecidableEq, Repr

/-- A Python value passed to `is_valid_version`: a string, or a value of any
other type (for which `isinstance(version, str)` is `False`). -/
inductive PyValue
  | str (s : String)
  | nonStr
deriving DecidableEq, Repr

/-- `is_valid_version`: non-strings are rejected with `False`; strings
longer than 20 characters raise; then the version regex is matched, the
string after the leading `v` is split on `"."`, and each part is checked by
the loop body `versionPartOk` (the loop returns `False` at the first bad
part, which coincides with `List.all`). -/
def is_valid_version : PyValue → Except LengthError Bool
  | .nonStr => .ok false
  | .str version =>
    if version.length > 20 then .error .tooLong
    else if !pyMatchVersionPattern version then .ok false
    else
      let parts := versionParts version
      if parts.length ≠ 3 then .ok false
      else .ok (parts.all versionPartOk)

/-- The validity predicate as the spec words it: the whole string matches
`v<digits>.<digits>.<digits>` (a full match leaves no room for a trailing
newline) and no dot-separated component has a leading zero with component
length greater than 1.  Stated from the spec for comparison with
`is_valid_version`. -/
def spec_valid_version (s : String) : Bool :=
  versionPatternCore s.data &&
    (versionParts s).all
      (fun p => !(p.data.head? == some '0' && decide (1 < p.length)))

/-- C4: divergence at the 7-character input `"v1.2.3\n"`.  The string does
not match `v<digits>.<digits>.<digits>` (it carries a trailing newline), so
the stated property requires `false`; but `is_valid_version` returns `true`,
because Python's `$` (without `re.MULTILINE`) also matches just before a
newline that ends the string, and `int("3\n")` parses.  The intended
positive case and the leading-zero rejection behave as stated. -/
theorem is_valid_version_trailing_newline_bug :
    is_valid_version (.str "v1.2.3\n") = .ok true ∧
    spec_valid_version "v1.2.3\n" = false ∧
    ("v1.2.3\n").length ≤ 20 ∧
    is_valid_version (.str "v1.0.0") = .ok true ∧
    is_valid_version (.str "v01.0.0") = .ok false := by
  decide

/-- C5: `is_valid_version` raises `LengthError` if and only if the input is
a string of more than 20 characters, regardless of the string's content;
non-string input returns `false` without raising. -/
theorem is_valid_version_length_error (v : PyValue) :
    ((∃ e, is_valid_version v = .error e) ↔ ∃ s, v = .str s ∧ 20 < s.length) ∧
    is_valid_version .nonStr = .ok false := by
  refine ⟨?_, rfl⟩
  cases v with
  | nonStr =>
    constructor
    · rintro ⟨e, he⟩
      exact Except.noConfusion he
    · rintro ⟨s, hs, -⟩
      cases hs
  | str s =>
    by_cases h : 20 < s.length
    · constructor
      · intro _
        exact ⟨s, rfl, h⟩
      · intro _
        exact ⟨.tooLong, by simp [is_valid_version, h]⟩
    · constructor
      · rintro ⟨e, he⟩
        simp only [is_valid_version] at he
        rw [if_neg (by omega)] at he
        split at he
        · exact Except.noConfusion he
        · split at he
          · exact Except.noConfusion he
          · exact Except.noConfusion he
      · rintro ⟨t, ht, hlen⟩
        cases ht
        exact absurd hlen h

/-- Witness for C5: a 21-character string raises `LengthError`. -/
theorem is_valid_version_length_error_witness :
    is_valid_version (.str "aaaaaaaaaaaaaaaaaaaaa") = .error .tooLong := by
  obtain ⟨h1, -⟩ := is_valid_version_length_error (.str "aaaaaaaaaaaaaaaaaaaaa")
  obtain ⟨e, he⟩ := h1.mpr ⟨"aaaaaaaaaaaaaaaaaaaaa", rfl, by decide⟩
  cases e
  exact he

/-- The character class `[0-9a-fA-F]`. -/
def isHexChar (c : Char) : Bool :=
  c.isDigit || ('a' ≤ c && c ≤ 'f') || ('A' ≤ c && c ≤ 'F')

/-- Python `re.match(r"^[0-9a-fA-F]{32}$", t)` as a Boolean: `t` is exactly
32 hexadecimal characters, or (by the `$`-before-trailing-newline rule) 32
hexadecimal characters followed by one final newline. -/
def pyMatchMd5 (t : String) : Bool :=
  (t.length == 32 && t.data.all isHexChar) ||
    (t.length == 33 && t.data.getLast? == some '\n' && t.data.dropLast.all isHexChar)

/-- `get_asset_hash`: refresh the cache if invalid, find the first release
whose `tag_name` equals `version`, within it the first asset named
`asset_name + hash_file_suffix`, download that asset (`hashFetch` models
`requests.get` on the asset's `browser_download_url`; a missing URL makes
`requests.get` raise, which the caller models as `.error`), strip the text
and accept it only if it matches the 32-hex-character pattern.  Every raised
`RequestException` is caught and yields `None`.  Returns the optional hash,
the post-state, and the number of upstream release-list requests issued. -/
def get_asset_hash (s : CacheState) (now : Int)
    (listFetch : Except FetchError (List Release))
    (hashFetch : Option String → Except FetchError String)
    (version asset_name hash_file_suffix : String) :
    Option String × CacheState × Nat :=
  match refreshCache s now listFetch with
  | (.error _, n) => (none, s, n)
  | (.ok s', n) =>
    let releases := s'.cache.getD []
    match releases.find? (fun r => r.tag_name == some version) with
    | none => (none, s', n)
    | some release =>
      let hash_file_name := asset_name ++ hash_file_suffix
      match release.assets.find? (fun a => a.name == some hash_file_name) with
      | none => (none, s', n)
      | some asset =>
        match hashFetch asset.browser_download_url with
        | .error _ => (none, s', n)
        | .ok text =>
          let hash_text := pyStrip text
          if pyMatchMd5 hash_text then (some hash_text, s', n)
          else (none, s', n)

/-- A changelog entry: the optional `version` field (`entry.get('version')`)
and the list of change strings. -/
structure ChangelogEntry where
  version : Option String
  changes : List String
deriving DecidableEq, Repr

/-- The Python `KeyError` raised by `release['tag_name']` when a release
record lacks the key. -/
inductive KeyError
  | keyError
deriving DecidableEq, Repr

/-- The set comprehension `{release['tag_name'] for release in releases}`:
bracket access raises `KeyError` on a release without `tag_name`.  The set
is only used for membership, so a list of the tags models it. -/
def valid_versions : List Release → Except KeyError (List String)
  | [] => .ok []
  | r :: rs =>
    match r.tag_name with
    | none => .error .keyError
    | some t => (valid_versions rs).map (fun ts => t :: ts)

/-- `get_changelog`: refresh the cache if invalid (a raised fetch error is
caught and yields `[]`), then download the changelog document (`clResp`
models `requests.get(changelog_file_url)`: `.ok (status, body)` is a
response with its status code and parsed body, `.error` a raised request
exception, also caught to `[]`).  On status 200 the entries are filtered to
those whose `version` is among the releases' tag names; every non-200
status yields `[]`.  The `KeyError` from a tagless release is not caught
and propagates.  Returns the result (or the uncaught `KeyError`), the
post-state, and the number of upstream release-list requests issued. -/
def get_changelog (s : CacheState) (now : Int)
    (listFetch : Except FetchError (List Release))
    (clResp : Except FetchError (Nat × List ChangelogEntry)) :
    Except KeyError (List ChangelogEntry) × CacheState × Nat :=
  match refreshCache s now listFetch with
  | (.error _, n) => (.ok [], s, n)
  | (.ok s', n) =>
    let releases := s'.cache.getD []
    match clResp with
    | .error _ => (.ok [], s', n)
    | .ok (status, changelog) =>
      if status == 200 then
        match valid_versions releases with
        | .error e => (.error e, s', n)
        | .ok tags =>
          (.ok (changelog.filter (fun entry =>
            match entry.version with
            | some v => tags.contains v
            | none => false)), s', n)
      else (.ok [], s', n)

/-- The head surviving a `dropWhile` fails the dropped predicate. -/
theorem head?_dropWhile_false (p : Char → Bool) (l : List Char) (c : Char)
    (h : (l.dropWhile p).head? = some c) : p c = false := by
  induction l with
  | nil => exact absurd h (by simp)
  | cons a as ih =>
    rw [List.dropWhile_cons] at h
    by_cases hp : p a
    · rw [if_pos hp] at h
      exact ih h
    · rw [if_neg hp] at h
      obtain rfl : a = c := by simpa using h
      simpa using hp

/-- A stripped string never ends in whitespace. -/
theorem pyStrip_getLast_not_space (s : String) (c : Char)
    (h : (pyStrip s).data.getLast? = some c) : pyIsSpace c = false := by
  have h' : ((s.data.dropWhile pyIsSpace).reverse.dropWhile pyIsSpace).reverse.getLast?
      = some c := h
  rw [List.getLast?_reverse] at h'
  exact head?_dropWhile_false _ _ _ h'

/-- On stripped text the trailing-newline branch of the MD5 pattern is dead:
the match holds exactly when the text is 32 hexadecimal characters. -/
theorem pyMatchMd5_pyStrip (content : String) :
    pyMatchMd5 (pyStrip content) =
      ((pyStrip content).length == 32 && (pyStrip content).data.all isHexChar) := by
  unfold pyMatchMd5
  cases hl : (pyStrip content).data.getLast? with
  | none => simp [hl]
  | some c =>
    by_cases hc : c = '\n'
    · subst hc
      exact absurd (pyStrip_getLast_not_space content '\n' hl) (by decide)
    · simp [hl, hc]

/-- C6: when the cache holds a snapshot in which the requested release and
its companion hash file are found, and the hash file downloads with content
`content`, `get_asset_hash` returns the trimmed content exactly when that
trimmed content consists of 32 hexadecimal characters (case-insensitive,
via `isHexChar`); any other content yields `none` — the `Option` return
carries no raised error. -/
theorem get_asset_hash_md5_validation (s : CacheState) (now : Int)
    (listFetch : Except FetchError (List Release))
    (version asset_name suffix content : String)
    (rels : List Release) (release : Release) (asset : Asset)
    (hvalid : is_cache_valid s now = true)
    (hcache : s.cache = some rels)
    (hrel : rels.find? (fun r => r.tag_name == some version) = some release)
    (hasset : release.assets.find?
      (fun a => a.name == some (asset_name ++ suffix)) = some asset) :
    get_asset_hash s now listFetch (fun _ => .ok content) version asset_name suffix =
      ((if (pyStrip content).length = 32 ∧ (pyStrip content).data.all isHexChar
        then some (pyStrip content) else none), s, 0) := by
  have hmd5 := pyMatchMd5_pyStrip content
  simp only [get_asset_hash, refreshCache, hvalid, if_true, hcache, Option.getD_some,
    hrel, hasset, hmd5]
  by_cases hp : (pyStrip content).length = 32 ∧ (pyStrip content).data.all isHexChar
  · obtain ⟨h1, h2⟩ := hp
    simp [h1, h2]
  · rw [if_neg hp]
    rw [if_neg ?_]
    intro hb
    rw [Bool.and_eq_true, beq_iff_eq] at hb
    exact hp ⟨hb.1, hb.2⟩

/-- Witness for C6: a hash file whose content strips to a canonical MD5
digest yields that digest. -/
theorem get_asset_hash_md5_validation_witness :
    get_asset_hash ⟨some [⟨some "v1.0.0", [⟨some "update.tar.gz.md5", some "u"⟩]⟩], some 0⟩
        10 (.ok []) (fun _ => .ok " d41d8cd98f00b204e9800998ecf8427e\n")
        "v1.0.0" "update.tar.gz" ".md5" =
      (some "d41d8cd98f00b204e9800998ecf8427e",
        ⟨some [⟨some "v1.0.0", [⟨some "update.tar.gz.md5", some "u"⟩]⟩], some 0⟩, 0) := by
  have h := get_asset_hash_md5_validation
    ⟨some [⟨some "v1.0.0", [⟨some "update.tar.gz.md5", some "u"⟩]⟩], some 0⟩ 10 (.ok [])
    "v1.0.0" "update.tar.gz" ".md5" " d41d8cd98f00b204e9800998ecf8427e\n"
    [⟨some "v1.0.0", [⟨some "update.tar.gz.md5", some "u"⟩]⟩]
    ⟨some "v1.0.0", [⟨some "update.tar.gz.md5", some "u"⟩]⟩
    ⟨some "update.tar.gz.md5", some "u"⟩
    (by decide) rfl (by decide) (by decide)
  rw [h]
  decide

/-- Membership in the tag set built by `get_changelog`: a string is a valid
version exactly when it is the tag of some snapshot release. -/
theorem mem_valid_versions (rels : List Release) (tags : List String)
    (h : valid_versions rels = .ok tags) (v : String) :
    v ∈ tags ↔ ∃ r ∈ rels, r.tag_name = some v := by
  induction rels generalizing tags with
  | nil =>
    injection h with h
    subst h
    simp
  | cons r rs ih =>
    cases hr : r.tag_name with
    | none =>
      rw [valid_versions, hr] at h
      exact Except.noConfusion h
    | some t =>
      rw [valid_versions, hr] at h
      cases hrs : valid_versions rs with
      | error e =>
        rw [hrs] at h
        exact Except.noConfusion h
      | ok ts =>
        rw [hrs] at h
        injection h with h
        subst h
        constructor
        · intro hv
          rcases List.mem_cons.mp hv with rfl | hv
          · exact ⟨r, List.mem_cons_self r rs, hr⟩
          · obtain ⟨r', hm', ht'⟩ := (ih ts hrs).mp hv
            exact ⟨r', List.mem_cons_of_mem _ hm', ht'⟩
        · rintro ⟨r', hm', ht'⟩
          rcases List.mem_cons.mp hm' with rfl | hmem
          · rw [hr] at ht'
            injection ht' with ht'
            subst ht'
            exact List.mem_cons_self t ts
          · exact List.mem_cons_of_mem _ ((ih ts hrs).mpr ⟨r', hmem, ht'⟩)

/-- C7: with a valid cached snapshot whose releases all carry tags, a
status-200 changelog document is restricted to exactly the entries whose
version label equals some snapshot tag: the result is the order-preserving
`List.filter` of the document, hence a sublist (same relative order), and an
entry of the document survives iff its `version` is the tag of some
snapshot release; all other entries are dropped. -/
theorem get_changelog_filters_by_snapshot (s : CacheState) (now : Int)
    (listFetch : Except FetchError (List Release))
    (changelog : List ChangelogEntry) (rels : List Release) (tags : List String)
    (hvalid : is_cache_valid s now = true)
    (hcache : s.cache = some rels)
    (htags : valid_versions rels = .ok tags) :
    (get_changelog s now listFetch (.ok (200, changelog))).1 =
      .ok (changelog.filter (fun entry =>
        match entry.version with
        | some v => tags.contains v
        | none => false)) ∧
    (changelog.filter (fun entry =>
      match entry.version with
      | some v => tags.contains v
      | none => false)).Sublist changelog ∧
    ∀ e ∈ changelog,
      (e ∈ changelog.filter (fun entry =>
        match entry.version with
        | some v => tags.contains v
        | none => false) ↔
        ∃ v, e.version = some v ∧ ∃ r ∈ rels, r.tag_name = some v) := by
  refine ⟨?_, List.filter_sublist changelog, ?_⟩
  · simp [get_changelog, refreshCache, hvalid, hcache, htags]
  · intro e he
    rw [List.mem_filter]
    constructor
    · rintro ⟨-, hf⟩
      cases hv : e.version with
      | none =>
        rw [hv] at hf
        exact Bool.noConfusion hf
      | some v =>
        rw [hv] at hf
        refine ⟨v, rfl, (mem_valid_versions rels tags htags v).mp ?_⟩
        simpa using hf
    · rintro ⟨v, hv, hr⟩
      refine ⟨he, ?_⟩
      rw [hv]
      simpa using (mem_valid_versions rels tags htags v).mpr hr

/-- Witness for C7: entries for an unreleased version and with a missing
version label are dropped; tagged entries survive in document order. -/
theorem get_changelog_filters_by_snapshot_witness :
    (get_changelog ⟨some [⟨some "v1.0.2", []⟩, ⟨some "v1.0.0", []⟩], some 0⟩ 10 (.ok [])
        (.ok (200, [⟨some "v2.0.0", ["future"]⟩, ⟨some "v1.0.2", ["a"]⟩,
          ⟨none, ["x"]⟩, ⟨some "v1.0.0", ["b"]⟩]))).1 =
      .ok [⟨some "v1.0.2", ["a"]⟩, ⟨some "v1.0.0", ["b"]⟩] := by
  have h := (get_changelog_filters_by_snapshot
    ⟨some [⟨some "v1.0.2", []⟩, ⟨some "v1.0.0", []⟩], some 0⟩ 10 (.ok [])
    [⟨some "v2.0.0", ["future"]⟩, ⟨some "v1.0.2", ["a"]⟩, ⟨none, ["x"]⟩,
      ⟨some "v1.0.0", ["b"]⟩]
    [⟨some "v1.0.2", []⟩, ⟨some "v1.0.0", []⟩] ["v1.0.2", "v1.0.0"]
    (by decide) rfl (by decide)).1
  rw [h]
  decide

/-- The release-list request count of `get_asset_hash` is exactly the count
of its cache-refresh block, whatever the search and download then do. -/
theorem get_asset_hash_count_eq_refresh (s : CacheState) (now : Int)
    (listFetch : Except FetchError (List Release))
    (hashFetch : Option String → Except FetchError String)
    (version asset_name suffix : String) :
    (get_asset_hash s now listFetch hashFetch version asset_name suffix).2.2 =
      (refreshCache s now listFetch).2 := by
  unfold get_asset_hash
  rcases h : refreshCache s now listFetch with ⟨res, n⟩
  cases res with
  | error e => rfl
  | ok s' =>
    cases hr : (s'.cache.getD []).find? (fun r => r.tag_name == some version) with
    | none => simp [hr]
    | some release =>
      cases ha : release.assets.find?
          (fun a => a.name == some (asset_name ++ suffix)) with
      | none => simp [hr, ha]
      | some asset =>
        cases hh : hashFetch asset.browser_download_url with
        | error e => simp [hr, ha, hh]
        | ok text =>
          by_cases hm : pyMatchMd5 (pyStrip text) <;> simp [hr, ha, hh, hm]

/-- The release-list request count of `get_changelog` is exactly the count
of its cache-refresh block, whatever the filtering then does. -/
theorem get_changelog_count_eq_refresh (s : CacheState) (now : Int)
    (listFetch : Except FetchError (List Release))
    (clResp : Except FetchError (Nat × List ChangelogEntry)) :
    (get_changelog s now listFetch clResp).2.2 = (refreshCache s now listFetch).2 := by
  unfold get_changelog
  rcases h : refreshCache s now listFetch with ⟨res, n⟩
  cases res with
  | error e => rfl
  | ok s' =>
    cases clResp with
    | error e => rfl
    | ok resp =>
      rcases resp with ⟨status, changelog⟩
      by_cases hs : status == 200
      · cases hv : valid_versions (s'.cache.getD []) with
        | error e => simp [hs, hv]
        | ok tags => simp [hs, hv]
      · simp [hs]

/-- C3 counterexample: with a fresh, within-TTL snapshot, one call to
`get_asset_hash` and one call to `get_changelog` each issue zero upstream
release-list fetches — they rely on the cache TTL instead of always
fetching. -/
theorem fresh_cache_read_skips_fetch :
    is_cache_valid ⟨some [], some 0⟩ 10 = true ∧
    (get_asset_hash ⟨some [], some 0⟩ 10 (.ok []) (fun _ => .ok "")
      "v1.0.0" "update.tar.gz" ".md5").2.2 = 0 ∧
    (get_changelog ⟨some [], some 0⟩ 10 (.ok []) (.ok (200, []))).2.2 = 0 := by
  decide

/-- C3 (amended): `get_asset_hash` and `get_changelog` issue an upstream
release-list fetch exactly when the cache is invalid (cold or past TTL) —
one fetch then, and zero fetches while a within-TTL snapshot exists. -/
theorem asset_hash_changelog_fetch_count (s : CacheState) (now : Int)
    (listFetch : Except FetchError (List Release))
    (hashFetch : Option String → Except FetchError String)
    (version asset_name suffix : String)
    (clResp : Except FetchError (Nat × List ChangelogEntry)) :
    (get_asset_hash s now listFetch hashFetch version asset_name suffix).2.2 =
      (if is_cache_valid s now then 0 else 1) ∧
    (get_changelog s now listFetch clResp).2.2 =
      (if is_cache_valid s now then 0 else 1) := by
  have hcount : (refreshCache s now listFetch).2 =
      (if is_cache_valid s now then 0 else 1) := by
    unfold refreshCache
    by_cases hv : is_cache_valid s now
    · simp [hv]
    · cases listFetch <;> simp [hv]
  rw [get_asset_hash_count_eq_refresh, get_changelog_count_eq_refresh, hcount]
  exact ⟨rfl, rfl⟩

/-- One reader's position inside `get_releases`: about to evaluate the
`_is_cache_valid()` test (line 72), about to run the fetch-and-store block
(lines 82–87) after having observed a stale cache, or finished. -/
inductive ReaderPc
  | atCheck
  | atFetch
  | done
deriving DecidableEq, Repr

/-- Global state of several readers running `get_releases` concurrently on
one shared instance: whether the shared cache is currently valid, each
reader's position, and the number of upstream fetches issued so far.  The
source defines no lock, so a reader's validity check and its fetch are
separate atomic steps between which other readers' steps interleave. -/
structure ConcState where
  cacheValid : Bool
  pcs : List ReaderPc
  fetchCount : Nat
deriving DecidableEq, Repr

/-- One atomic step of reader `i`: at the check, a valid cache finishes the
read from cached data, a stale cache sends the reader to the fetch; at the
fetch, `requests.get` is issued (one more upstream fetch) and the parsed
response is stored, making the cache valid. -/
def readerStep (s : ConcState) (i : Nat) : ConcState :=
  match s.pcs[i]? with
  | some ReaderPc.atCheck =>
    if s.cacheValid then { s with pcs := s.pcs.set i ReaderPc.done }
    else { s with pcs := s.pcs.set i ReaderPc.atFetch }
  | some ReaderPc.atFetch =>
    ⟨true, s.pcs.set i ReaderPc.done, s.fetchCount + 1⟩
  | _ => s

/-- Run an interleaving: the schedule lists which reader takes each step. -/
def runSched (s : ConcState) (sched : List Nat) : ConcState :=
  sched.foldl readerStep s

/-- C9 counterexample: two readers both enter `get_releases` during a stale
window; in the interleaving where both run the validity check before either
fetch lands (nothing in the source prevents it — there is no lock), TWO
upstream fetches are issued, not one, even though both readers finish. -/
theorem concurrent_stale_readers_double_fetch :
    runSched ⟨false, [.atCheck, .atCheck], 0⟩ [0, 1, 0, 1] =
      ⟨true, [.done, .done], 2⟩ ∧
    (runSched ⟨false, [.atCheck, .atCheck], 0⟩ [0, 1, 0, 1]).fetchCount ≠ 1 := by
  decide

/-- C9 (amended): before the TTL elapses a read triggers zero upstream
fetches; but the stale-window refresh is not single-flight: concurrent
readers that each observe the stale cache before any fetch completes each
issue their own upstream fetch (two such readers, two fetches). -/
theorem refresh_not_single_flight (s : CacheState) (now : Int)
    (listFetch : Except FetchError (List Release)) :
    (is_cache_valid s now = true → (get_releases s now listFetch).2.2 = 0) ∧
    runSched ⟨false, [.atCheck, .atCheck], 0⟩ [0, 1, 0, 1] =
      ⟨true, [.done, .done], 2⟩ := by
  constructor
  · intro h
    simp [get_releases, refreshCache, h]
  · decide

/-- Witness for C9 (amended): a within-TTL read issues zero fetches. -/
theorem refresh_not_single_flight_witness :
    (get_releases ⟨some [], some 0⟩ 10 (.ok [⟨some "v1.0.0", []⟩])).2.2 = 0 :=
  (refresh_not_single_flight ⟨some [], some 0⟩ 10 (.ok [⟨some "v1.0.0", []⟩])).1
    (by decide)

end GitHubReleases
